import Mathlib

/-!
Verification of the two Meridian container services
(`containers/pandoc/app.py` and `containers/tesseract/app.py`).

Strings are embedded as `List Char`; bytes as `List Nat`; Python floats as
exact rationals `ℚ`.  The external engines (pypandoc, pdf2image, pytesseract)
are opaque collaborators and are embedded as parameters of the request
handlers: a page image is identified with the pair of observations the
recognition engine makes of it (its plain text and its structured per-token
confidence data).
-/

/-- Python `str.lower` restricted to ASCII case folding (the denylist tokens
are pure ASCII, so this is the relevant behaviour of `line.lower()` /
`token.lower()` in `sanitize_markdown`). -/
def lowerStr (s : List Char) : List Char := s.map Char.toLower

/-- The line-boundary characters recognised by Python `str.splitlines`. -/
def isLineBreak (c : Char) : Bool :=
  c = '\n' || c = '\r' || c = '\x0b' || c = '\x0c' ||
  c = '\x1c' || c = '\x1d' || c = '\x1e' || c = '\x85' ||
  c = '\u2028' || c = '\u2029'

/-- Python `str.splitlines()`: split at line boundaries (with `\r\n` counting
as a single boundary), boundaries not kept, and no trailing empty line for a
string ending in a line boundary. -/
def splitlines : List Char → List (List Char)
  | [] => []
  | '\r' :: '\n' :: rest => [] :: splitlines rest
  | c :: cs =>
    if isLineBreak c then [] :: splitlines cs
    else
      match splitlines cs with
      | [] => [[c]]
      | l :: ls => (c :: l) :: ls

/-- `prefixMatch t s` is true iff `t` is an initial segment of `s`. -/
def prefixMatch : List Char → List Char → Bool
  | [], _ => true
  | _ :: _, [] => false
  | a :: as, b :: bs => a == b && prefixMatch as bs

/-- Python's `t in s` on strings: `t` occurs as a contiguous substring of
`s`. -/
def containsSub (t : List Char) : List Char → Bool
  | [] => prefixMatch t []
  | c :: cs => prefixMatch t (c :: cs) || containsSub t cs

/-- `BLOCKED_TOKENS` from `containers/pandoc/app.py`. -/
def BLOCKED_TOKENS : List (List Char) :=
  [ "\\write18".toList, "\\input".toList, "\\include".toList,
    "\\openout".toList, "\\read".toList, "\\catcode".toList ]

/-- The per-line test of `sanitize_markdown`:
`any(token.lower() in line.lower() for token in BLOCKED_TOKENS)`. -/
def lineBlocked (line : List Char) : Bool :=
  BLOCKED_TOKENS.any (fun tok => containsSub (lowerStr tok) (lowerStr line))

/-- Python `"\n".join(ls)`. -/
def joinNL : List (List Char) → List Char
  | [] => []
  | [l] => l
  | l :: ls => l ++ '\n' :: joinNL ls

/-- `sanitize_markdown` from `containers/pandoc/app.py`: the for-loop that
appends every non-blocked line to `sanitized_lines` and rejoins with
newlines. -/
def sanitize_markdown (md : List Char) : List Char :=
  joinNL ((splitlines md).foldl
    (fun acc line => if lineBlocked line then acc else acc ++ [line]) [])

example : splitlines "ab\ncd".toList = ["ab".toList, "cd".toList] := by decide
example : splitlines "ab\r\ncd\n".toList = ["ab".toList, "cd".toList] := by decide
example : splitlines "\n".toList = [[]] := by decide
example : splitlines [] = [] := by decide
example : containsSub "bc".toList "abcd".toList = true := by decide
example : containsSub "bd".toList "abcd".toList = false := by decide
example : sanitize_markdown "keep\nuse \\WRITE18 now\nalso".toList
    = "keep\nalso".toList := by decide

/-- The whitespace characters stripped by Python `str.strip()` (Unicode
whitespace as recognised by `str.isspace`). -/
def isPySpace (c : Char) : Bool :=
  c = ' ' || c = '\t' || c = '\n' || c = '\r' || c = '\x0b' || c = '\x0c' ||
  c = '\x1c' || c = '\x1d' || c = '\x1e' || c = '\x1f' || c = '\x85' ||
  c = '\xa0' || c = '\u1680' || ('\u2000' ≤ c && c ≤ '\u200a') ||
  c = '\u2028' || c = '\u2029' || c = '\u202f' || c = '\u205f' || c = '\u3000'

/-- Python `s.strip()`: remove leading and trailing whitespace. -/
def pyStrip (s : List Char) : List Char :=
  ((s.dropWhile isPySpace).reverse.dropWhile isPySpace).reverse

/-- The standard base64 alphabet used by `base64.b64encode`. -/
def B64_ALPHABET : List Char :=
  "ABCDEFGHIJKLMNOPQRSTUVWXYZabcdefghijklmnopqrstuvwxyz0123456789+/".toList

/-- `base64.b64encode(bytes).decode("utf-8")`: encode a byte sequence in
groups of three bytes into four alphabet characters, padding with `=`. -/
def b64encode : List Nat → List Char
  | [] => []
  | [a] =>
    [ B64_ALPHABET.getD (a / 4) 'A', B64_ALPHABET.getD (a % 4 * 16) 'A',
      '=', '=' ]
  | [a, b] =>
    [ B64_ALPHABET.getD (a / 4) 'A', B64_ALPHABET.getD (a % 4 * 16 + b / 16) 'A',
      B64_ALPHABET.getD (b % 16 * 4) 'A', '=' ]
  | a :: b :: c :: rest =>
    B64_ALPHABET.getD (a / 4) 'A' ::
    B64_ALPHABET.getD (a % 4 * 16 + b / 16) 'A' ::
    B64_ALPHABET.getD (b % 16 * 4 + c / 64) 'A' ::
    B64_ALPHABET.getD (c % 64) 'A' ::
    b64encode rest

example : b64encode [77, 97, 110] = "TWFu".toList := by decide
example : b64encode [77, 97] = "TWE=".toList := by decide
example : b64encode [77] = "TQ==".toList := by decide

/-- Outcome of one invocation of `pypandoc.convert_text` on the scoped
temporary file: either the bytes the engine wrote into the file, or the
message of the `RuntimeError` it raised. -/
inductive EngineResult where
  | ok : List Nat → EngineResult
  | err : List Char → EngineResult
deriving DecidableEq

/-- `RenderRequest` from `containers/pandoc/app.py`. -/
structure RenderRequest where
  markdown : List Char
  content_hash : Option (List Char)
deriving DecidableEq

/-- `RenderResponse` from `containers/pandoc/app.py`. -/
structure RenderResponse where
  pdfBase64 : List Char
  hash : Option (List Char)
deriving DecidableEq

/-- What the `render` handler produces: a response body, or an
`HTTPException` with a status code and a detail message. -/
inductive RenderOutcome where
  | success : RenderResponse → RenderOutcome
  | httpError : Nat → List Char → RenderOutcome
deriving DecidableEq

/-- Lifetime events of the scoped temporary file. -/
inductive FileEvent where
  | create
  | delete
deriving DecidableEq

/-- Semantics of `with tempfile.NamedTemporaryFile(...) as pdf_file: body`:
the file is created on entry and deleted on exit, whether the body returns
normally or raises (the body's value or exception passes through). -/
def withTempFile {α : Type} (body : List FileEvent × α) : List FileEvent × α :=
  (FileEvent.create :: body.1 ++ [FileEvent.delete], body.2)

/-- The `render` handler from `containers/pandoc/app.py`, instrumented with
the trace of temporary-file lifetime events.  `engine` is the opaque
`pypandoc.convert_text` call, mapping the sanitized markdown to the result
of the invocation. -/
def render (engine : List Char → EngineResult) (req : RenderRequest) :
    List FileEvent × RenderOutcome :=
  if req.markdown.isEmpty || (pyStrip req.markdown).isEmpty then
    ([], RenderOutcome.success ⟨[], req.content_hash⟩)
  else
    let sanitized := sanitize_markdown req.markdown
    if (pyStrip sanitized).isEmpty then
      ([], RenderOutcome.success ⟨[], req.content_hash⟩)
    else
      match withTempFile ([], engine sanitized) with
      | (evs, EngineResult.err m) => (evs, RenderOutcome.httpError 500 m)
      | (evs, EngineResult.ok pdf_bytes) =>
          (evs, RenderOutcome.success ⟨b64encode pdf_bytes, req.content_hash⟩)

example :
    (render (fun _ => EngineResult.ok [1, 2, 3]) ⟨"hi".toList, none⟩).2
      = RenderOutcome.success ⟨"AQID".toList, none⟩ := by decide
example :
    render (fun _ => EngineResult.err "boom".toList) ⟨"hi".toList, some "h".toList⟩
      = ([FileEvent.create, FileEvent.delete],
         RenderOutcome.httpError 500 "boom".toList) := by decide
example :
    render (fun _ => EngineResult.err "boom".toList) ⟨"  \n ".toList, some "h".toList⟩
      = ([], RenderOutcome.success ⟨[], some "h".toList⟩) := by decide
example :
    render (fun _ => EngineResult.err "boom".toList) ⟨"\\input x".toList, none⟩
      = ([], RenderOutcome.success ⟨[], none⟩) := by decide

/-- One entry of the `"conf"` list returned by
`pytesseract.image_to_data(image, output_type=Output.DICT)`, as observed by
`float(value)`: either it parses to a number, or `float` raises
`TypeError`/`ValueError`. -/
inductive ConfValue where
  | num : ℚ → ConfValue
  | invalid : ConfValue
deriving DecidableEq

/-- The `try: conf = float(value) / except: continue` step of
`_estimate_confidence`. -/
def parseConf : ConfValue → Option ℚ
  | ConfValue.num q => some q
  | ConfValue.invalid => none

/-- One iteration of the `_estimate_confidence` loop: parse the value, keep
it when it parses and is non-negative. -/
def confStep (acc : List ℚ) (v : ConfValue) : List ℚ :=
  match parseConf v with
  | none => acc
  | some conf => if 0 ≤ conf then acc ++ [conf] else acc

/-- The loop of `_estimate_confidence` building `confidences`. -/
def collectConfs (data : List ConfValue) : List ℚ :=
  data.foldl confStep []

/-- `_estimate_confidence` from `containers/tesseract/app.py` (as a function
of the engine's `"conf"` data for the image): mean of the kept confidences
scaled by 100, or `0.0` when none were kept. -/
def estimate_confidence (data : List ConfValue) : ℚ :=
  let confidences := collectConfs data
  if confidences.isEmpty then 0
  else confidences.sum / ((confidences.length : ℚ) * 100)

example : estimate_confidence [ConfValue.num 80, ConfValue.num (-1), ConfValue.num 60]
    = 7 / 10 := by norm_num [estimate_confidence, collectConfs, confStep, parseConf]
example : estimate_confidence [ConfValue.invalid, ConfValue.num (-1)] = 0 := by
  norm_num [estimate_confidence, collectConfs, confStep, parseConf]

/-- A page image, identified with what the recognition engine observes of
it: `pytesseract.image_to_string image` and the `"conf"` column of
`pytesseract.image_to_data image`. -/
structure PageImage where
  text : List Char
  confData : List ConfValue
deriving DecidableEq

/-- An `/ocr` upload: the declared content type (`UploadFile.content_type`,
possibly absent) and the uploaded bytes. -/
structure OcrRequest where
  content_type : Option (List Char)
  payload : List Nat
deriving DecidableEq

/-- The JSON body of a successful `/ocr` response. -/
structure OcrJson where
  text : List Char
  confidence : ℚ
  pages : Nat
deriving DecidableEq

/-- What the `perform_ocr` handler produces. -/
inductive OcrOutcome where
  | success : OcrJson → OcrOutcome
  | httpError : Nat → List Char → OcrOutcome
deriving DecidableEq

/-- The accepted content types
`{"application/pdf", "application/octet-stream", "pdf"}`. -/
def ACCEPTED_TYPES : List (List Char) :=
  [ "application/pdf".toList, "application/octet-stream".toList, "pdf".toList ]

/-- `file.content_type not in {...}` inverted: a missing content type is
never in the set. -/
def contentTypeOk : Option (List Char) → Bool
  | some ct => ACCEPTED_TYPES.contains ct
  | none => false

/-- Round a rational to an integer, halves to the even neighbour (the
rounding Python `round` performs). -/
def roundHalfEven (q : ℚ) : ℤ :=
  if q - (⌊q⌋ : ℚ) < 1 / 2 then ⌊q⌋
  else if 1 / 2 < q - (⌊q⌋ : ℚ) then ⌊q⌋ + 1
  else if ⌊q⌋ % 2 = 0 then ⌊q⌋ else ⌊q⌋ + 1

/-- Python `round(x, 4)` idealised over exact rationals. -/
def round4 (q : ℚ) : ℚ := (roundHalfEven (q * 10000) : ℚ) / 10000

example : round4 (7 / 10) = 7 / 10 := by norm_num [round4, roundHalfEven]
example : round4 (123456 / 1000000) = 1235 / 10000 := by
  norm_num [round4, roundHalfEven]
example : roundHalfEven (5 / 2) = 2 := by norm_num [roundHalfEven]
example : roundHalfEven (7 / 2) = 4 := by norm_num [roundHalfEven]

/-- The `perform_ocr` handler from `containers/tesseract/app.py`.  `convert`
is the opaque `pdf2image.convert_from_bytes(payload, dpi=300)` call: it
either raises (with a message) or yields the list of page images. -/
def perform_ocr (convert : List Nat → Except (List Char) (List PageImage))
    (req : OcrRequest) : OcrOutcome :=
  if !contentTypeOk req.content_type then
    OcrOutcome.httpError 415 "Only PDF uploads are supported".toList
  else if req.payload.isEmpty then
    OcrOutcome.httpError 400 "Uploaded document was empty".toList
  else
    match convert req.payload with
    | Except.error m =>
        OcrOutcome.httpError 400 ("Failed to convert PDF to images: ".toList ++ m)
    | Except.ok images =>
        if images.isEmpty then OcrOutcome.success ⟨[], 0, 0⟩
        else
          let text_segments := images.map PageImage.text
          let confidences := images.map (fun image => estimate_confidence image.confData)
          let combined :=
            pyStrip (joinNL ((text_segments.filter (fun s => !s.isEmpty)).map pyStrip))
          let confidence :=
            if confidences.isEmpty then 0
            else confidences.sum / (confidences.length : ℚ)
          OcrOutcome.success ⟨combined, round4 confidence, images.length⟩

example :
    perform_ocr (fun _ => Except.ok []) ⟨some "text/plain".toList, []⟩
      = OcrOutcome.httpError 415 "Only PDF uploads are supported".toList := by decide
example :
    perform_ocr (fun _ => Except.ok []) ⟨some "pdf".toList, []⟩
      = OcrOutcome.httpError 400 "Uploaded document was empty".toList := by decide
example :
    perform_ocr (fun _ => Except.ok []) ⟨some "pdf".toList, [1]⟩
      = OcrOutcome.success ⟨[], 0, 0⟩ := by decide
example :
    perform_ocr (fun _ => Except.error "bad".toList) ⟨some "pdf".toList, [1]⟩
      = OcrOutcome.httpError 400 "Failed to convert PDF to images: bad".toList := by
  decide
example :
    perform_ocr
      (fun _ => Except.ok
        [⟨" a ".toList, [ConfValue.num 80, ConfValue.num (-1), ConfValue.num 60]⟩,
         ⟨" ".toList, []⟩,
         ⟨" b ".toList, [ConfValue.num 90]⟩])
      ⟨some "application/pdf".toList, [1, 2]⟩
      = OcrOutcome.success ⟨"a\n\nb".toList, 5333 / 10000, 3⟩ := by
  unfold perform_ocr
  norm_num [contentTypeOk, ACCEPTED_TYPES, estimate_confidence, collectConfs,
    confStep, parseConf, round4, roundHalfEven, OcrJson.mk.injEq, List.cons_ne_nil]
  decide

theorem sanitize_foldl_eq_filter (ls : List (List Char)) : ∀ acc,
    ls.foldl (fun acc line => if lineBlocked line then acc else acc ++ [line]) acc
      = acc ++ ls.filter (fun l => !lineBlocked l) := by
  induction ls with
  | nil => intro acc; simp
  | cons l ls ih =>
    intro acc
    cases hb : lineBlocked l with
    | true => simp [hb, ih]
    | false => simp [hb, ih]

theorem sanitize_markdown_eq (md : List Char) :
    sanitize_markdown md
      = joinNL ((splitlines md).filter (fun l => !lineBlocked l)) := by
  unfold sanitize_markdown
  rw [sanitize_foldl_eq_filter]
  rfl

theorem prefixMatch_append_elim (t : List Char) (c : Char) :
    ∀ l r : List Char, prefixMatch t (l ++ c :: r) = true → c ∉ t →
      prefixMatch t l = true := by
  induction t with
  | nil => intro l r _ _; rfl
  | cons a as ih =>
    intro l r h hc
    cases l with
    | nil =>
      simp only [List.nil_append, prefixMatch, Bool.and_eq_true, beq_iff_eq] at h
      exact absurd (by rw [← h.1]; exact List.mem_cons_self a as) hc
    | cons x xs =>
      simp only [List.cons_append, prefixMatch, Bool.and_eq_true] at h ⊢
      exact ⟨h.1, ih xs r h.2 (fun hmem => hc (List.mem_cons_of_mem a hmem))⟩

theorem containsSub_append_cons (t : List Char) (c : Char) (hc : c ∉ t) :
    ∀ l r : List Char, containsSub t (l ++ c :: r) = true →
      containsSub t l = true ∨ containsSub t r = true := by
  intro l
  induction l with
  | nil =>
    intro r h
    simp only [List.nil_append, containsSub, Bool.or_eq_true] at h
    rcases h with h | h
    · cases t with
      | nil => left; rfl
      | cons a as =>
        simp only [prefixMatch, Bool.and_eq_true, beq_iff_eq] at h
        exact absurd (by rw [← h.1]; exact List.mem_cons_self a as) hc
    · right; exact h
  | cons x xs ih =>
    intro r h
    simp only [List.cons_append, containsSub, Bool.or_eq_true] at h
    rcases h with h | h
    · left
      have hp : prefixMatch t (x :: xs) = true :=
        prefixMatch_append_elim t c (x :: xs) r h hc
      simp [containsSub, hp]
    · rcases ih r h with h1 | h1
      · left; simp [containsSub, h1]
      · right; exact h1

theorem lowerStr_joinNL : ∀ ls : List (List Char),
    lowerStr (joinNL ls) = joinNL (ls.map lowerStr) := by
  intro ls
  induction ls with
  | nil => rfl
  | cons l ls ih =>
    cases ls with
    | nil => rfl
    | cons l2 ls2 =>
      show lowerStr (l ++ '\n' :: joinNL (l2 :: ls2)) = _
      rw [show lowerStr (l ++ '\n' :: joinNL (l2 :: ls2))
            = lowerStr l ++ Char.toLower '\n' :: lowerStr (joinNL (l2 :: ls2)) from
          List.map_append Char.toLower l ('\n' :: joinNL (l2 :: ls2)), ih]
      rfl

theorem joinNL_not_contains (t : List Char) (ht : t ≠ []) (hnl : '\n' ∉ t) :
    ∀ ls : List (List Char), (∀ l ∈ ls, containsSub t l = false) →
      containsSub t (joinNL ls) = false := by
  intro ls
  induction ls with
  | nil =>
    intro _
    cases t with
    | nil => exact absurd rfl ht
    | cons a as => rfl
  | cons l ls ih =>
    intro hall
    cases ls with
    | nil => exact hall l (List.mem_cons_self l [])
    | cons l2 ls2 =>
      show containsSub t (l ++ '\n' :: joinNL (l2 :: ls2)) = false
      cases hv : containsSub t (l ++ '\n' :: joinNL (l2 :: ls2)) with
      | false => rfl
      | true =>
        rcases containsSub_append_cons t '\n' hnl l _ hv with h | h
        · rw [hall l (List.mem_cons_self l _)] at h; cases h
        · rw [ih (fun x hx => hall x (List.mem_cons_of_mem _ hx))] at h; cases h

/-- C1: for every input string, the sanitizer's output consists exactly of
those input lines that do not contain a blocked denylist token as a
case-insensitive substring (the filter of `splitlines`, in original order,
rejoined with newlines), and every line containing a blocked token is absent
from the retained lines. -/
theorem sanitize_markdown_keeps_exactly_unblocked (md : List Char) :
    sanitize_markdown md
      = joinNL ((splitlines md).filter (fun l => !lineBlocked l)) ∧
    ∀ line ∈ splitlines md, lineBlocked line = true →
      line ∉ (splitlines md).filter (fun l => !lineBlocked l) := by
  refine ⟨sanitize_markdown_eq md, ?_⟩
  intro line _ hb hmem
  have := (List.mem_filter.1 hmem).2
  rw [hb] at this
  cases this

theorem sanitize_witness_keeps :
    sanitize_markdown "keep\nuse \\Input x\nalso".toList
      = joinNL ((splitlines "keep\nuse \\Input x\nalso".toList).filter
          (fun l => !lineBlocked l)) ∧
    "use \\Input x".toList
      ∉ (splitlines "keep\nuse \\Input x\nalso".toList).filter
          (fun l => !lineBlocked l) :=
  ⟨(sanitize_markdown_keeps_exactly_unblocked "keep\nuse \\Input x\nalso".toList).1,
   (sanitize_markdown_keeps_exactly_unblocked "keep\nuse \\Input x\nalso".toList).2
     "use \\Input x".toList (by decide) (by decide)⟩

/-- C9: the sanitizer's output never contains a blocked token as a
case-insensitive substring: each retained line is clean, and no token
contains a newline, so no occurrence can straddle the newline joins. -/
theorem sanitize_markdown_output_clean (md tok : List Char)
    (htok : tok ∈ BLOCKED_TOKENS) :
    containsSub (lowerStr tok) (lowerStr (sanitize_markdown md)) = false := by
  rw [sanitize_markdown_eq, lowerStr_joinNL]
  have ht : lowerStr tok ≠ [] ∧ '\n' ∉ lowerStr tok := by
    simp only [BLOCKED_TOKENS, List.mem_cons, List.not_mem_nil, or_false] at htok
    rcases htok with rfl | rfl | rfl | rfl | rfl | rfl <;> exact ⟨by decide, by decide⟩
  apply joinNL_not_contains _ ht.1 ht.2
  intro l hl
  rcases List.mem_map.1 hl with ⟨line, hline, rfl⟩
  have hkeep : lineBlocked line = false := by
    have h2 := (List.mem_filter.1 hline).2
    cases hb : lineBlocked line with
    | false => rfl
    | true => rw [hb] at h2; cases h2
  cases hv : containsSub (lowerStr tok) (lowerStr line) with
  | false => rfl
  | true =>
    have hblocked : lineBlocked line = true :=
      List.any_eq_true.2 ⟨tok, htok, hv⟩
    rw [hkeep] at hblocked
    cases hblocked

theorem sanitize_witness_clean :
    "\\write18".toList ∈ BLOCKED_TOKENS ∧
    containsSub (lowerStr "\\write18".toList)
      (lowerStr (sanitize_markdown "safe\n\\WRITE18 rm\ntail".toList)) = false :=
  ⟨by decide,
   sanitize_markdown_output_clean "safe\n\\WRITE18 rm\ntail".toList
     "\\write18".toList (by decide)⟩

theorem pyStrip_nil : pyStrip [] = [] := rfl

/-- C2: a render request whose markdown is empty, whitespace-only, or
sanitizes to the empty string gets a success response with empty
`pdfBase64` and the request's `content_hash` echoed unchanged (also when
absent), never an error. -/
theorem render_empty_markdown (engine : List Char → EngineResult)
    (req : RenderRequest)
    (h : req.markdown = [] ∨ pyStrip req.markdown = [] ∨
        sanitize_markdown req.markdown = []) :
    (render engine req).2 = RenderOutcome.success ⟨[], req.content_hash⟩ := by
  unfold render
  rcases h with h | h | h
  · simp [h]
  · simp [h]
  · by_cases h1 : (req.markdown.isEmpty || (pyStrip req.markdown).isEmpty) = true
    · simp [h1]
    · simp [h1, h, pyStrip_nil]

theorem render_witness_empty :
    ((" \n\t".toList = [] ∨ pyStrip " \n\t".toList = [] ∨
        sanitize_markdown " \n\t".toList = []) ∧
      (render (fun _ => EngineResult.err "late".toList)
          ⟨" \n\t".toList, some "h0".toList⟩).2
        = RenderOutcome.success ⟨[], some "h0".toList⟩) ∧
    (("\\write18 rm".toList = [] ∨ pyStrip "\\write18 rm".toList = [] ∨
        sanitize_markdown "\\write18 rm".toList = []) ∧
      (render (fun _ => EngineResult.err "late".toList)
          ⟨"\\write18 rm".toList, none⟩).2
        = RenderOutcome.success ⟨[], none⟩) :=
  ⟨⟨by decide,
    render_empty_markdown (fun _ => EngineResult.err "late".toList)
      ⟨" \n\t".toList, some "h0".toList⟩ (by decide)⟩,
   ⟨by decide,
    render_empty_markdown (fun _ => EngineResult.err "late".toList)
      ⟨"\\write18 rm".toList, none⟩ (by decide)⟩⟩

/-- C5: when a render request reaches the engine invocation, an engine
failure surfaces as a 500 error whose detail is the engine's message, and
an engine success yields the base64 encoding of the produced bytes with the
echoed hash. -/
theorem render_engine_outcome (engine : List Char → EngineResult)
    (req : RenderRequest)
    (h1 : (req.markdown.isEmpty || (pyStrip req.markdown).isEmpty) = false)
    (h2 : (pyStrip (sanitize_markdown req.markdown)).isEmpty = false) :
    (∀ m, engine (sanitize_markdown req.markdown) = EngineResult.err m →
        (render engine req).2 = RenderOutcome.httpError 500 m) ∧
    (∀ pdf_bytes, engine (sanitize_markdown req.markdown) = EngineResult.ok pdf_bytes →
        (render engine req).2
          = RenderOutcome.success ⟨b64encode pdf_bytes, req.content_hash⟩) := by
  constructor <;> intro x hx <;> simp [render, h1, h2, withTempFile, hx]

theorem render_witness_engine :
    (render (fun _ => EngineResult.err "pandoc died".toList) ⟨"body".toList, none⟩).2
        = RenderOutcome.httpError 500 "pandoc died".toList ∧
    (render (fun _ => EngineResult.ok [77, 97, 110]) ⟨"body".toList, some "h1".toList⟩).2
        = RenderOutcome.success ⟨"TWFu".toList, some "h1".toList⟩ :=
  ⟨(render_engine_outcome (fun _ => EngineResult.err "pandoc died".toList)
      ⟨"body".toList, none⟩ (by decide) (by decide)).1 "pandoc died".toList rfl,
   (render_engine_outcome (fun _ => EngineResult.ok [77, 97, 110])
      ⟨"body".toList, some "h1".toList⟩ (by decide) (by decide)).2 [77, 97, 110] rfl⟩

/-- C8: on every request, every temporary-file creation in the render
handler's trace is matched by a deletion, and on any path that creates the
scoped temporary file (i.e. that reaches the engine invocation) the trace is
exactly create-then-delete, whether the engine succeeds or fails. -/
theorem render_tempfile_deleted (engine : List Char → EngineResult)
    (req : RenderRequest) :
    ((render engine req).1.count FileEvent.create
        = (render engine req).1.count FileEvent.delete) ∧
    (FileEvent.create ∈ (render engine req).1 →
        (render engine req).1 = [FileEvent.create, FileEvent.delete]) := by
  unfold render
  split
  · exact ⟨rfl, by intro h; cases h⟩
  · dsimp only
    split
    · exact ⟨rfl, by intro h; cases h⟩
    · cases engine (sanitize_markdown req.markdown) <;>
        exact ⟨rfl, fun _ => rfl⟩

theorem render_witness_tempfile :
    (render (fun _ => EngineResult.err "boom".toList) ⟨"body".toList, none⟩).1
        = [FileEvent.create, FileEvent.delete] ∧
    (render (fun _ => EngineResult.ok []) ⟨"body".toList, none⟩).1
        = [FileEvent.create, FileEvent.delete] :=
  ⟨(render_tempfile_deleted (fun _ => EngineResult.err "boom".toList)
      ⟨"body".toList, none⟩).2 (by decide),
   (render_tempfile_deleted (fun _ => EngineResult.ok [])
      ⟨"body".toList, none⟩).2 (by decide)⟩

theorem confStep_num (acc : List ℚ) (q : ℚ) :
    confStep acc (ConfValue.num q) = if 0 ≤ q then acc ++ [q] else acc := rfl

theorem confStep_invalid (acc : List ℚ) : confStep acc ConfValue.invalid = acc := rfl

theorem collectConfs_foldl (data : List ConfValue) : ∀ acc : List ℚ,
    data.foldl confStep acc
    = acc ++ (data.filterMap parseConf).filter (fun c => decide (0 ≤ c)) := by
  induction data with
  | nil => intro acc; simp
  | cons v vs ih =>
    intro acc
    rw [List.foldl_cons]
    cases v with
    | invalid => simpa [parseConf] using ih acc
    | num q =>
      by_cases hq : 0 ≤ q
      · rw [confStep_num, if_pos hq, ih]
        simp [parseConf, hq, List.filterMap_cons]
      · rw [confStep_num, if_neg hq, ih]
        simp [parseConf, hq, List.filterMap_cons]

theorem collectConfs_eq_filter (data : List ConfValue) :
    collectConfs data
      = (data.filterMap parseConf).filter (fun c => decide (0 ≤ c)) := by
  unfold collectConfs
  rw [collectConfs_foldl]
  rfl

/-- C3: the per-page confidence estimate is the arithmetic mean of exactly
the engine-reported confidence values that parse as numbers and are
non-negative, divided by 100 (0 when none pass the filter); in particular
`[80, -1, 60]` yields `0.7`. -/
theorem estimate_confidence_spec (data : List ConfValue) :
    (estimate_confidence data =
      if ((data.filterMap parseConf).filter (fun c => decide (0 ≤ c))).isEmpty then 0
      else (((data.filterMap parseConf).filter (fun c => decide (0 ≤ c))).sum
            / (((data.filterMap parseConf).filter (fun c => decide (0 ≤ c))).length : ℚ))
            / 100) ∧
    estimate_confidence [ConfValue.num 80, ConfValue.num (-1), ConfValue.num 60]
      = 7 / 10 := by
  constructor
  · unfold estimate_confidence
    rw [collectConfs_eq_filter]
    dsimp only
    split
    · rfl
    · rw [div_div]
  · norm_num [estimate_confidence, collectConfs, confStep, parseConf]

/-- C4: the OCR endpoint rejects an unaccepted content type with 415,
then an empty payload with 400, then a conversion failure with 400 carrying
the converter's message; a zero-page conversion yields the success response
with empty text, zero confidence and zero pages. -/
theorem perform_ocr_validation
    (convert : List Nat → Except (List Char) (List PageImage)) (req : OcrRequest) :
    (contentTypeOk req.content_type = false →
        perform_ocr convert req
          = OcrOutcome.httpError 415 "Only PDF uploads are supported".toList) ∧
    (contentTypeOk req.content_type = true → req.payload = [] →
        perform_ocr convert req
          = OcrOutcome.httpError 400 "Uploaded document was empty".toList) ∧
    (∀ m, contentTypeOk req.content_type = true → req.payload ≠ [] →
        convert req.payload = Except.error m →
        perform_ocr convert req
          = OcrOutcome.httpError 400 ("Failed to convert PDF to images: ".toList ++ m)) ∧
    (contentTypeOk req.content_type = true → req.payload ≠ [] →
        convert req.payload = Except.ok [] →
        perform_ocr convert req = OcrOutcome.success ⟨[], 0, 0⟩) := by
  refine ⟨fun h1 => ?_, fun h1 h2 => ?_, fun m h1 h2 h3 => ?_, fun h1 h2 h3 => ?_⟩ <;>
    simp_all [perform_ocr, List.isEmpty_iff]

theorem ocr_witness_validation :
    perform_ocr (fun _ => Except.ok []) ⟨some "text/plain".toList, [1]⟩
        = OcrOutcome.httpError 415 "Only PDF uploads are supported".toList ∧
    perform_ocr (fun _ => Except.ok []) ⟨some "pdf".toList, []⟩
        = OcrOutcome.httpError 400 "Uploaded document was empty".toList ∧
    perform_ocr (fun _ => Except.error "no pages".toList)
        ⟨some "application/pdf".toList, [9]⟩
        = OcrOutcome.httpError 400
            ("Failed to convert PDF to images: ".toList ++ "no pages".toList) ∧
    perform_ocr (fun _ => Except.ok []) ⟨some "application/octet-stream".toList, [9]⟩
        = OcrOutcome.success ⟨[], 0, 0⟩ :=
  ⟨(perform_ocr_validation (fun _ => Except.ok [])
      ⟨some "text/plain".toList, [1]⟩).1 (by decide),
   (perform_ocr_validation (fun _ => Except.ok [])
      ⟨some "pdf".toList, []⟩).2.1 (by decide) rfl,
   (perform_ocr_validation (fun _ => Except.error "no pages".toList)
      ⟨some "application/pdf".toList, [9]⟩).2.2.1 "no pages".toList
      (by decide) (by decide) rfl,
   (perform_ocr_validation (fun _ => Except.ok [])
      ⟨some "application/octet-stream".toList, [9]⟩).2.2.2
      (by decide) (by decide) rfl⟩

/-- C10: the content-type check precedes the payload check: any upload with
an unaccepted declared content type is answered 415, even when the payload
is empty, and never 400. -/
theorem perform_ocr_type_before_payload
    (convert : List Nat → Except (List Char) (List PageImage))
    (ct : Option (List Char)) (payload : List Nat)
    (h : contentTypeOk ct = false) :
    perform_ocr convert ⟨ct, payload⟩
        = OcrOutcome.httpError 415 "Only PDF uploads are supported".toList ∧
    ∀ m, perform_ocr convert ⟨ct, payload⟩ ≠ OcrOutcome.httpError 400 m := by
  have h415 : perform_ocr convert ⟨ct, payload⟩
      = OcrOutcome.httpError 415 "Only PDF uploads are supported".toList := by
    simp [perform_ocr, h]
  refine ⟨h415, fun m hm => ?_⟩
  rw [h415] at hm
  simp at hm

theorem ocr_witness_type_first :
    perform_ocr (fun _ => Except.ok []) ⟨none, []⟩
        = OcrOutcome.httpError 415 "Only PDF uploads are supported".toList ∧
    perform_ocr (fun _ => Except.ok []) ⟨none, []⟩
        ≠ OcrOutcome.httpError 400 "Uploaded document was empty".toList :=
  ⟨(perform_ocr_type_before_payload (fun _ => Except.ok []) none [] (by decide)).1,
   (perform_ocr_type_before_payload (fun _ => Except.ok []) none [] (by decide)).2
     "Uploaded document was empty".toList⟩

/-- The text field of a successful OCR response. -/
def ocrTextOf : OcrOutcome → Option (List Char)
  | OcrOutcome.success j => some j.text
  | OcrOutcome.httpError _ _ => none

/-- Page images whose middle page's text is whitespace-only but nonempty. -/
def pages6 : List PageImage :=
  [⟨" a ".toList, []⟩, ⟨" ".toList, []⟩, ⟨" b ".toList, []⟩]

/-- A converter producing `pages6`. -/
def conv6 : List Nat → Except (List Char) (List PageImage) :=
  fun _ => Except.ok pages6

/-- A well-formed OCR request. -/
def req6 : OcrRequest := ⟨some "pdf".toList, [1]⟩

/-- The combination the claim describes: strip each page's text, trim away
the (now) empty segments, join with newlines, strip the whole — under which
no empty entry can remain between separators. -/
def claimCombine (segments : List (List Char)) : List Char :=
  pyStrip (joinNL ((segments.map pyStrip).filter (fun s => !s.isEmpty)))

/-- C6 counterexample: with page texts `" a "`, `" "`, `" b "` the handler
returns `"a\n\nb"`: the whitespace-only page passes the nonempty filter and
strips to an empty entry between the newline separators, so the returned
text differs from the claim's empty-free combination `"a\nb"`. -/
theorem perform_ocr_text_counterexample :
    ocrTextOf (perform_ocr conv6 req6) = some "a\n\nb".toList ∧
    containsSub "\n\n".toList "a\n\nb".toList = true ∧
    claimCombine (pages6.map PageImage.text) = "a\nb".toList ∧
    ocrTextOf (perform_ocr conv6 req6)
      ≠ some (claimCombine (pages6.map PageImage.text)) := by decide

/-- C6 (amended): for every OCR request with at least one page, the
returned text is obtained by dropping the raw-empty page texts, stripping
each remaining segment, joining with newline separators, and stripping the
whole result; a nonempty whitespace-only segment therefore contributes an
empty entry between separators. -/
theorem perform_ocr_text_spec
    (convert : List Nat → Except (List Char) (List PageImage)) (req : OcrRequest)
    (images : List PageImage)
    (hct : contentTypeOk req.content_type = true) (hp : req.payload ≠ [])
    (hc : convert req.payload = Except.ok images) (hne : images ≠ []) :
    ocrTextOf (perform_ocr convert req)
      = some (pyStrip (joinNL
          (((images.map PageImage.text).filter (fun s => !s.isEmpty)).map pyStrip))) := by
  simp [perform_ocr, ocrTextOf, hct, hc, List.isEmpty_iff, hp, hne]

theorem ocr_witness_text :
    ocrTextOf (perform_ocr conv6 req6)
      = some (pyStrip (joinNL
          (((pages6.map PageImage.text).filter (fun s => !s.isEmpty)).map pyStrip))) :=
  perform_ocr_text_spec conv6 req6 pages6 (by decide) (by decide) rfl (by decide)

theorem mem_collectConfs {c : ℚ} {data : List ConfValue}
    (hc : c ∈ collectConfs data) : 0 ≤ c ∧ ConfValue.num c ∈ data := by
  rw [collectConfs_eq_filter] at hc
  have h1 := List.mem_filter.1 hc
  refine ⟨of_decide_eq_true h1.2, ?_⟩
  rcases List.mem_filterMap.1 h1.1 with ⟨v, hv, hpar⟩
  cases v with
  | invalid => exact absurd hpar (by simp [parseConf])
  | num q =>
    have hqc : q = c := by simpa [parseConf] using hpar
    rw [← hqc]
    exact hv

theorem estimate_confidence_nonneg (data : List ConfValue) :
    0 ≤ estimate_confidence data := by
  unfold estimate_confidence
  dsimp only
  split
  · norm_num
  · apply div_nonneg
    · exact List.sum_nonneg (fun x hx => (mem_collectConfs hx).1)
    · positivity

theorem estimate_confidence_le_one (data : List ConfValue)
    (hcap : ∀ q, ConfValue.num q ∈ data → q ≤ 100) :
    estimate_confidence data ≤ 1 := by
  unfold estimate_confidence
  dsimp only
  split
  · norm_num
  · rename_i hne
    rw [List.isEmpty_iff] at hne
    have hlen : 0 < (collectConfs data).length := List.length_pos.2 hne
    have hlenq : (0 : ℚ) < ((collectConfs data).length : ℚ) := by exact_mod_cast hlen
    rw [div_le_one (by nlinarith)]
    calc (collectConfs data).sum
        ≤ (collectConfs data).length • (100 : ℚ) :=
          List.sum_le_card_nsmul _ _ (fun x hx => hcap x (mem_collectConfs hx).2)
      _ = ((collectConfs data).length : ℚ) * 100 := by rw [nsmul_eq_mul]

theorem list_avg_unit (l : List ℚ) (hne : l ≠ [])
    (h0 : ∀ x ∈ l, 0 ≤ x) (h1 : ∀ x ∈ l, x ≤ 1) :
    0 ≤ l.sum / (l.length : ℚ) ∧ l.sum / (l.length : ℚ) ≤ 1 := by
  have hlen : 0 < l.length := List.length_pos.2 hne
  have hlenq : (0 : ℚ) < (l.length : ℚ) := by exact_mod_cast hlen
  constructor
  · exact div_nonneg (List.sum_nonneg h0) (le_of_lt hlenq)
  · rw [div_le_one hlenq]
    have hs := List.sum_le_card_nsmul l 1 h1
    simpa [nsmul_eq_mul] using hs

theorem roundHalfEven_nonneg (q : ℚ) (h : 0 ≤ q) : 0 ≤ roundHalfEven q := by
  have hf : (0 : ℤ) ≤ ⌊q⌋ := Int.floor_nonneg.2 h
  unfold roundHalfEven
  split
  · exact hf
  split
  · omega
  split
  · exact hf
  · omega

theorem roundHalfEven_le (q : ℚ) (n : ℤ) (h : q ≤ (n : ℚ)) :
    roundHalfEven q ≤ n := by
  have hf : ⌊q⌋ ≤ n := by
    have h2 := Int.floor_le_floor h
    rwa [Int.floor_intCast] at h2
  unfold roundHalfEven
  split
  · exact hf
  split
  · rename_i h1 h2
    have hq : (⌊q⌋ : ℚ) + 1 / 2 < q := by linarith
    have hlt : (⌊q⌋ : ℚ) < (n : ℚ) := by linarith
    have : ⌊q⌋ < n := by exact_mod_cast hlt
    omega
  split
  · exact hf
  · rename_i h1 h2 h3
    have hr : q - (⌊q⌋ : ℚ) = 1 / 2 := le_antisymm (not_lt.1 h2) (not_lt.1 h1)
    have hlt : (⌊q⌋ : ℚ) < (n : ℚ) := by linarith
    have : ⌊q⌋ < n := by exact_mod_cast hlt
    omega

theorem round4_mem_unit (q : ℚ) (h0 : 0 ≤ q) (h1 : q ≤ 1) :
    0 ≤ round4 q ∧ round4 q ≤ 1 := by
  unfold round4
  constructor
  · apply div_nonneg _ (by norm_num)
    exact_mod_cast roundHalfEven_nonneg _ (by nlinarith)
  · rw [div_le_one (by norm_num)]
    have h2 : roundHalfEven (q * 10000) ≤ (10000 : ℤ) :=
      roundHalfEven_le _ _ (by push_cast; linarith)
    exact_mod_cast h2

/-- C7: every successful OCR response (under the engine contract that
per-token confidences are at most 100) carries a confidence in [0, 1]: the
average of the per-page estimates, rounded to four decimals, stays in the
unit interval. -/
theorem perform_ocr_confidence_unit
    (convert : List Nat → Except (List Char) (List PageImage)) (req : OcrRequest)
    (hcap : ∀ images, convert req.payload = Except.ok images →
        ∀ image ∈ images, ∀ q, ConfValue.num q ∈ image.confData → q ≤ 100)
    (j : OcrJson) (hj : perform_ocr convert req = OcrOutcome.success j) :
    0 ≤ j.confidence ∧ j.confidence ≤ 1 := by
  unfold perform_ocr at hj
  split at hj
  · cases hj
  · split at hj
    · cases hj
    · split at hj
      · cases hj
      · rename_i images hc
        by_cases hemp : images.isEmpty
        · rw [if_pos hemp] at hj
          cases hj
          norm_num
        · rw [if_neg hemp] at hj
          dsimp only at hj
          cases hj
          dsimp only
          have hne : images.map (fun image => estimate_confidence image.confData) ≠ [] := by
            intro h0
            rw [List.map_eq_nil_iff] at h0
            rw [h0] at hemp
            exact hemp rfl
          rw [if_neg (by simpa [List.isEmpty_iff] using hne)]
          obtain ⟨ha, hb⟩ :=
            list_avg_unit (images.map fun image => estimate_confidence image.confData) hne
              (fun x hx => by
                rcases List.mem_map.1 hx with ⟨im, _, rfl⟩
                exact estimate_confidence_nonneg _)
              (fun x hx => by
                rcases List.mem_map.1 hx with ⟨im, him, rfl⟩
                exact estimate_confidence_le_one _ (hcap images hc im him))
          exact round4_mem_unit _ ha hb

/-- A single page whose engine confidences are 80, -1, 60. -/
def pages7 : List PageImage :=
  [⟨"hi".toList, [ConfValue.num 80, ConfValue.num (-1), ConfValue.num 60]⟩]

/-- A converter producing `pages7`. -/
def conv7 : List Nat → Except (List Char) (List PageImage) :=
  fun _ => Except.ok pages7

/-- A well-formed OCR request for the `pages7` document. -/
def req7 : OcrRequest := ⟨some "application/pdf".toList, [1]⟩

/-- The response `perform_ocr conv7 req7` produces. -/
def j7 : OcrJson := ⟨"hi".toList, 7 / 10, 1⟩

theorem ocr_witness_confidence : 0 ≤ j7.confidence ∧ j7.confidence ≤ 1 :=
  perform_ocr_confidence_unit conv7 req7
    (by
      intro images h image him q hq
      simp only [conv7, Except.ok.injEq] at h
      subst h
      simp only [pages7, List.mem_cons, List.not_mem_nil, or_false] at him
      subst him
      simp only [List.mem_cons, List.not_mem_nil, or_false,
        ConfValue.num.injEq] at hq
      rcases hq with rfl | rfl | rfl <;> norm_num)
    j7
    (by
      unfold perform_ocr
      norm_num [conv7, req7, j7, pages7, contentTypeOk, ACCEPTED_TYPES,
        estimate_confidence, collectConfs, confStep, parseConf, round4,
        roundHalfEven, OcrJson.mk.injEq, List.cons_ne_nil]
      decide)
